import Mathlib

/-
Verification of the gofsutil mount-table library against its design
specification.  The repository's two source files (gofsutil.go, mount.go)
contain the data model (Entry, Info), the EntryScanFunc contract and the
public query facade; the internal pipeline functions (defaultEntryScanFunc,
getMounts, getDevMounts, getDiskFormat, formatAndMount, mount) are declared
and called there but their bodies live outside the given sources, so they
are modelled from the specification, as marked on each definition.
Go slices become Lean lists, the scan cache (a Go map passed by reference)
becomes an association list threaded explicitly through the scan, a Go
(value, bool, error) return becomes Except String (value × Bool × _), and
a nil function argument becomes Option.none.  The context argument (used
only for cancellation of external utilities, out of scope per the spec)
is omitted.
-/

namespace Gofsutil

/-- Info is the normalized, public representation of one mount, from
mount.go: Device, Path, Source, Type, Opts. -/
structure Info where
  Device : String
  Path : String
  Source : String
  «Type» : String
  Opts : List String
deriving Repr, DecidableEq

/-- Entry is the raw, platform-neutral parse of one mount-table record,
from mount.go: Root, MountPoint, MountOpts, FSType, MountSource. -/
structure Entry where
  Root : String
  MountPoint : String
  MountOpts : List String
  FSType : String
  MountSource : String
deriving Repr, DecidableEq

/-- The scan cache: a map from an implementation-chosen string key to
Entry, scoped to one table scan.  The Go map passed by reference is
modelled as an association list threaded through the scan. -/
abbrev Cache := List (String × Entry)

/-- EntryScanFunc, from mount.go: scan(ctx, entry, cache) yields
(Info, keep, err).  The mutable cache is modelled by returning its new
value; a non-nil error is the Except.error case, which by the contract
aborts the scan. -/
abbrev EntryScanFunc := Entry → Cache → Except String (Info × Bool × Cache)

/-- Modelled from the spec: defaultEntryScanFunc (referenced from
gofsutil.go as the default FS scan policy; its body is not among the given
sources).  Spec §4.2: the default policy accepts every Entry whose
MountPoint is non-empty and produces Info by direct field copy, using
MountSource concatenated with Root as Source.  The spec does not pin the
Device field; it is modelled as the MountSource.  The cache is left
untouched. -/
def defaultEntryScanFunc : EntryScanFunc := fun entry cache =>
  .ok
    ({ Device := entry.MountSource
       Path := entry.MountPoint
       Source := entry.MountSource ++ entry.Root
       «Type» := entry.FSType
       Opts := entry.MountOpts }
     , entry.MountPoint != ""
     , cache)

/-- Modelled from the spec: the scan loop at the heart of getMounts
(body not among the given sources).  Spec §2/§4.2: each Entry is fed in
table order through the active Scan Policy together with the cache shared
across the whole scan; accepted Infos are collected in order; keep=false
skips the Entry; an error aborts the entire scan, discarding the partial
results (Except.error carries no result list). -/
def scanEntries (scan : EntryScanFunc) : List Entry → Cache → Except String (List Info × Cache)
  | [], cache => .ok ([], cache)
  | e :: rest, cache =>
    match scan e cache with
    | .error err => .error err
    | .ok (info, keep, cache1) =>
      match scanEntries scan rest cache1 with
      | .error err => .error err
      | .ok (infos, cache2) => .ok ((if keep then info :: infos else infos), cache2)

/-- Modelled from the spec: getMounts (called from mount.go, body not
among the given sources).  Runs the table through the Scan Policy —
the caller-supplied one, or the default when none (Go nil) is given —
starting from an empty cache, and returns the accepted Infos. -/
def getMounts (table : List Entry) (scanEntry : Option EntryScanFunc) :
    Except String (List Info) :=
  (scanEntries (scanEntry.getD defaultEntryScanFunc) table []).map (fun p => p.1)

/-- Modelled from the spec: the device filter pushed into the Scan Policy.
Spec §4.3 allows getDevMounts to push the Device-equality filter into the
Scan Policy for efficiency, as long as observable results match the
unfiltered-then-filtered semantics (proved below). -/
def devFilterScan (dev : String) (scan : EntryScanFunc) : EntryScanFunc :=
  fun entry cache =>
    match scan entry cache with
    | .error err => .error err
    | .ok (info, keep, cache1) => .ok (info, keep && (info.Device == dev), cache1)

/-- Modelled from the spec: getDevMounts (called from mount.go, body not
among the given sources).  Spec §4.3: equivalent to GetMounts restricted
to Infos whose Device equals dev; this model takes the spec's pushed-filter
option. -/
def getDevMounts (table : List Entry) (dev : String)
    (scanEntry : Option EntryScanFunc) : Except String (List Info) :=
  (scanEntries (devFilterScan dev (scanEntry.getD defaultEntryScanFunc)) table []).map
    (fun p => p.1)

/-- GetMounts, from mount.go: delegates to getMounts with a nil scan
function. -/
def GetMounts (table : List Entry) : Except String (List Info) :=
  getMounts table none

/-- GetMountsWithEntryScanFunc, from mount.go: GetMounts with a custom
EntryScanFunc. -/
def GetMountsWithEntryScanFunc (table : List Entry)
    (scanEntry : Option EntryScanFunc) : Except String (List Info) :=
  getMounts table scanEntry

/-- GetDevMounts, from mount.go: delegates to getDevMounts with a nil scan
function. -/
def GetDevMounts (table : List Entry) (dev : String) : Except String (List Info) :=
  getDevMounts table dev none

/-- GetDevMountsWithEntryScanFunc, from mount.go: GetDevMounts with a
custom EntryScanFunc. -/
def GetDevMountsWithEntryScanFunc (table : List Entry) (dev : String)
    (scanEntry : Option EntryScanFunc) : Except String (List Info) :=
  getDevMounts table dev scanEntry

/-- The outcome of running the block-device-listing utility (lsblk) on a
disk and parsing its output for the filesystem-type column.  The utility
invocation and the raw text are out of scope (spec §1/§6); what the core
consumes is: the utility failed to run, the output could not be parsed,
the disk reports no filesystem type, or it reports type t. -/
inductive LsblkResult where
  | utilityError (msg : String)
  | parseError (msg : String)
  | noFSType
  | fsType (t : String)
deriving Repr, DecidableEq

/-- Modelled from the spec: getDiskFormat (called from mount.go, body not
among the given sources).  Spec §4.3: returns the empty string when the
device reports no filesystem type (unformatted), otherwise the detected
type string; fails with an error if the utility cannot run or its output
cannot be parsed.  The scan-function argument mirrors the Go signature and
plays no role in format detection. -/
def getDiskFormat (output : LsblkResult)
    (_scanEntry : Option EntryScanFunc) : Except String String :=
  match output with
  | .utilityError msg => .error msg
  | .parseError msg => .error msg
  | .noFSType => .ok ""
  | .fsType t => .ok t

/-- GetDiskFormat, from mount.go: delegates to getDiskFormat with a nil
scan function. -/
def GetDiskFormat (output : LsblkResult) : Except String String :=
  getDiskFormat output none

/-- GetDiskFormatWithEntryScanFunc, from mount.go: GetDiskFormat with a
custom EntryScanFunc. -/
def GetDiskFormatWithEntryScanFunc (output : LsblkResult)
    (scanEntry : Option EntryScanFunc) : Except String String :=
  getDiskFormat output scanEntry

/-- The effective arguments of one invocation of the underlying mount
operation. -/
structure MountArgs where
  source : String
  target : String
  fsType : String
  options : List String
deriving Repr, DecidableEq

/-- Modelled from the spec: the lower-case mount operation (called from
mount.go, body not among the given sources).  Spec §4.3/§6: it invokes the
system mount facility passing the caller-supplied options through verbatim;
the out-of-scope invocation is modelled by recording the effective
arguments. -/
def mount (source target fsType : String) (options : List String) : MountArgs :=
  { source := source, target := target, fsType := fsType, options := options }

/-- Mount, from mount.go: passes its arguments through to the mount
operation unchanged. -/
def Mount (source target fsType : String) (options : List String) : MountArgs :=
  mount source target fsType options

/-- BindMount, from mount.go: when the variadic options are nil the list
becomes just "bind", otherwise "bind" is appended; then mount is invoked
with an empty fsType.  A Go nil slice and an empty slice both appear here
as the empty list; both branches pass options with "bind" appended. -/
def BindMount (source target : String) (options : List String) : MountArgs :=
  let options := if options.isEmpty then ["bind"] else options ++ ["bind"]
  mount source target "" options

/-- Modelled from the spec: the externally observable mount state that
formatAndMount reads and writes — which filesystem type each disk carries
(absence meaning unformatted) and which (source, target) pairs are
mounted. -/
structure MntState where
  format : List (String × String)
  mounts : List (String × String)
deriving Repr, DecidableEq

/-- One invocation of an external utility performed during
formatAndMount: the block-device-listing utility, the formatting utility
selected by fsType, or the mount utility. -/
inductive UtilCall where
  | lsblk (disk : String)
  | mkfs (fsType disk : String)
  | mountUtil (source target fsType : String) (options : List String)
deriving Repr, DecidableEq

/-- Modelled from the spec: formatAndMount (called from mount.go, body not
among the given sources).  Spec §4.3: it re-uses GetDiskFormat to detect
the current format of the target, invokes the formatting utility selected
by fsType only when the detected format differs, then performs Mount.  The
external utilities are modelled as succeeding and their invocations are
recorded in a trace; mounting an already-mounted (source, target) pair
leaves the state unchanged, per the spec's idempotence requirement. -/
def formatAndMount (st : MntState) (source target fsType : String)
    (options : List String) : MntState × List UtilCall × Except String Unit :=
  let detected := (st.format.lookup target).getD ""
  if detected = fsType then
    let st1 := if st.mounts.contains (source, target) then st
               else { st with mounts := (source, target) :: st.mounts }
    (st1, [UtilCall.lsblk target, UtilCall.mountUtil source target fsType options],
     .ok ())
  else
    let st1 := { st with format := (target, fsType) :: st.format }
    let st2 := if st1.mounts.contains (source, target) then st1
               else { st1 with mounts := (source, target) :: st1.mounts }
    (st2, [UtilCall.lsblk target, UtilCall.mkfs fsType target,
           UtilCall.mountUtil source target fsType options],
     .ok ())

/-- FormatAndMount, from mount.go / gofsutil.go: passes its arguments
through to formatAndMount unchanged. -/
def FormatAndMount (st : MntState) (source target fsType : String)
    (options : List String) : MntState × List UtilCall × Except String Unit :=
  formatAndMount st source target fsType options

/-- EvalSymlinks, from gofsutil.go: resolves the path pointed to by
symPath and, on success, overwrites the pointed-to value with the resolved
path; on failure it returns the error without touching the value.  The
out-of-scope stdlib resolver (filepath.EvalSymlinks) is the explicit
resolve argument; the Go *string is modelled by taking the current
pointed-to value and returning the error result together with the
pointed-to value after the call. -/
def EvalSymlinks (resolve : String → Except String String)
    (symPath : String) : Option String × String :=
  match resolve symPath with
  | .error err => (some err, symPath)
  | .ok realPath => (none, realPath)

/-- A sample Scan Policy for concrete runs: it aborts with "boom" on an
Entry whose MountPoint is "bad" and otherwise behaves like the default
policy. -/
def scanW : EntryScanFunc := fun entry cache =>
  if entry.MountPoint == "bad" then .error "boom"
  else defaultEntryScanFunc entry cache

/-- C1: for every Entry whose MountPoint is non-empty, the default Scan
Policy returns keep=true together with an Info whose Path equals the
Entry's MountPoint, whose Type equals the Entry's FSType, and whose Source
is the concatenation of the Entry's MountSource and Root; the cache is
untouched. -/
theorem defaultEntryScanFunc_spec (entry : Entry) (cache : Cache)
    (h : entry.MountPoint ≠ "") :
    defaultEntryScanFunc entry cache =
      .ok ({ Device := entry.MountSource
             Path := entry.MountPoint
             Source := entry.MountSource ++ entry.Root
             «Type» := entry.FSType
             Opts := entry.MountOpts }, true, cache) := by
  simp [defaultEntryScanFunc, bne_iff_ne, h]

/-- Witness for C1 at a concrete Entry with non-empty MountPoint. -/
theorem defaultEntryScanFunc_spec_witness :
    defaultEntryScanFunc ⟨"/r", "/mnt", ["rw"], "ext4", "/dev/sda1"⟩ [] =
      .ok (⟨"/dev/sda1", "/mnt", "/dev/sda1" ++ "/r", "ext4", ["rw"]⟩, true, []) :=
  defaultEntryScanFunc_spec ⟨"/r", "/mnt", ["rw"], "ext4", "/dev/sda1"⟩ [] (by decide)

/-- C4: BindMount invokes the underlying mount operation with an empty
fsType and with the caller's options followed by "bind"; in particular no
options yield exactly ["bind"] and a single "ro" yields ["ro", "bind"]. -/
theorem BindMount_spec :
    (∀ source target options, BindMount source target options =
      mount source target "" (options ++ ["bind"])) ∧
    (∀ source target, BindMount source target [] =
      mount source target "" ["bind"]) ∧
    (∀ source target, BindMount source target ["ro"] =
      mount source target "" ["ro", "bind"]) := by
  refine ⟨?_, ?_, ?_⟩
  · intro source target options
    cases options <;> rfl
  · intro source target
    rfl
  · intro source target
    rfl

/-- C5: GetDiskFormat returns the empty string and no error when the
block-device listing reports no filesystem type, returns the detected type
string (e.g. "ext4") when one is reported, and returns an error when the
utility cannot run or its output cannot be parsed. -/
theorem GetDiskFormat_spec :
    (GetDiskFormat .noFSType = .ok "") ∧
    (GetDiskFormat (.fsType "ext4") = .ok "ext4") ∧
    (∀ t, GetDiskFormat (.fsType t) = .ok t) ∧
    (∀ msg, GetDiskFormat (.utilityError msg) = .error msg) ∧
    (∀ msg, GetDiskFormat (.parseError msg) = .error msg) :=
  ⟨rfl, rfl, fun _ => rfl, fun _ => rfl, fun _ => rfl⟩

/-- C6: when the target is already formatted as fsType and the
(source, target) pair is already mounted, FormatAndMount succeeds, leaves
the state unchanged, and its utility trace holds only the format-detection
call and the mount call — the formatting utility is not invoked again. -/
theorem FormatAndMount_idempotent (st : MntState) (source target fsType : String)
    (options : List String)
    (hfmt : (st.format.lookup target).getD "" = fsType)
    (hmnt : st.mounts.contains (source, target) = true) :
    FormatAndMount st source target fsType options =
      (st, [UtilCall.lsblk target, UtilCall.mountUtil source target fsType options],
       .ok ()) := by
  have hmem : (source, target) ∈ st.mounts := by
    simpa using hmnt
  simp [FormatAndMount, formatAndMount, hfmt, hmnt, hmem]

/-- Witness for C6 at a concrete already-formatted, already-mounted
state. -/
theorem FormatAndMount_idempotent_witness :
    FormatAndMount ⟨[("/mnt", "ext4")], [("/dev/sda1", "/mnt")]⟩
        "/dev/sda1" "/mnt" "ext4" [] =
      (⟨[("/mnt", "ext4")], [("/dev/sda1", "/mnt")]⟩,
       [UtilCall.lsblk "/mnt", UtilCall.mountUtil "/dev/sda1" "/mnt" "ext4" []],
       .ok ()) :=
  FormatAndMount_idempotent ⟨[("/mnt", "ext4")], [("/dev/sda1", "/mnt")]⟩
    "/dev/sda1" "/mnt" "ext4" [] (by decide) (by decide)

/-- C8: when resolution of the pointed-to path succeeds, EvalSymlinks
returns nil and overwrites the caller's path value with the resolved
path. -/
theorem EvalSymlinks_success (resolve : String → Except String String)
    (symPath realPath : String) (h : resolve symPath = .ok realPath) :
    EvalSymlinks resolve symPath = (none, realPath) := by
  simp [EvalSymlinks, h]

/-- Witness for C8 with a concrete resolver that succeeds. -/
theorem EvalSymlinks_success_witness :
    EvalSymlinks (fun _ => .ok "/real/path") "/some/sym" = (none, "/real/path") :=
  EvalSymlinks_success (fun _ => .ok "/real/path") "/some/sym" "/real/path" rfl

/-- C10: when resolution of the pointed-to path fails, EvalSymlinks
returns that error and the caller's path value is left unchanged. -/
theorem EvalSymlinks_failure_atomic (resolve : String → Except String String)
    (symPath err : String) (h : resolve symPath = .error err) :
    EvalSymlinks resolve symPath = (some err, symPath) := by
  simp [EvalSymlinks, h]

/-- Witness for C10 with a concrete resolver that fails. -/
theorem EvalSymlinks_failure_atomic_witness :
    EvalSymlinks (fun _ => .error "no such file") "/some/sym" =
      (some "no such file", "/some/sym") :=
  EvalSymlinks_failure_atomic (fun _ => .error "no such file") "/some/sym"
    "no such file" rfl

/-- C9: passing a nil EntryScanFunc to the WithEntryScanFunc variants is
observably identical to calling the plain variants, since each pair
delegates to the same internal function with a nil scan argument. -/
theorem nilEntryScanFunc_spec :
    (∀ table, GetMountsWithEntryScanFunc table none = GetMounts table) ∧
    (∀ table dev,
      GetDevMountsWithEntryScanFunc table dev none = GetDevMounts table dev) ∧
    (∀ output,
      GetDiskFormatWithEntryScanFunc output none = GetDiskFormat output) :=
  ⟨fun _ => rfl, fun _ _ => rfl, fun _ => rfl⟩

/-- Scanning a concatenated table: when the first part scans successfully,
the whole scan runs the second part from the cache the first part
produced, prefixing the first part's accepted Infos. -/
theorem scanEntries_append_ok (scan : EntryScanFunc) (l1 l2 : List Entry)
    (cache cache1 : Cache) (infos : List Info)
    (h : scanEntries scan l1 cache = .ok (infos, cache1)) :
    scanEntries scan (l1 ++ l2) cache =
      (scanEntries scan l2 cache1).map (fun p => (infos ++ p.1, p.2)) := by
  induction l1 generalizing cache infos with
  | nil =>
    simp only [scanEntries, Except.ok.injEq, Prod.mk.injEq] at h
    obtain ⟨h1, h2⟩ := h
    subst h1
    subst h2
    simp only [List.nil_append]
    cases scanEntries scan l2 cache <;> simp [Except.map]
  | cons e rest ih =>
    simp only [scanEntries] at h
    rw [List.cons_append]
    simp only [scanEntries]
    cases hscan : scan e cache with
    | error err =>
      rw [hscan] at h
      simp at h
    | ok v =>
      obtain ⟨info, keep, cacheA⟩ := v
      rw [hscan] at h
      simp only at h
      cases hrest : scanEntries scan rest cacheA with
      | error err =>
        rw [hrest] at h
        simp at h
      | ok w =>
        obtain ⟨infos2, cache2⟩ := w
        rw [hrest] at h
        simp only [Except.ok.injEq, Prod.mk.injEq] at h
        obtain ⟨hinfos, hcache⟩ := h
        subst hcache
        dsimp only
        rw [ih cacheA infos2 hrest]
        subst hinfos
        cases hl2 : scanEntries scan l2 cache2 with
        | error err => rfl
        | ok q =>
          cases keep <;> simp [Except.map]

/-- Pushing the Device-equality filter into the Scan Policy is observably
the same as filtering the unfiltered scan's results. -/
theorem scanEntries_devFilter (scan : EntryScanFunc) (dev : String)
    (entries : List Entry) (cache : Cache) :
    scanEntries (devFilterScan dev scan) entries cache =
      (scanEntries scan entries cache).map
        (fun p => (p.1.filter (fun i => i.Device == dev), p.2)) := by
  induction entries generalizing cache with
  | nil => simp [scanEntries, Except.map]
  | cons e rest ih =>
    simp only [scanEntries, devFilterScan]
    cases hscan : scan e cache with
    | error err => simp [Except.map]
    | ok v =>
      obtain ⟨info, keep, cache1⟩ := v
      simp only [ih cache1]
      cases hrest : scanEntries scan rest cache1 with
      | error err => simp [Except.map]
      | ok w =>
        obtain ⟨infos, cache2⟩ := w
        simp only [Except.map, Except.ok.injEq, Prod.mk.injEq]
        cases keep <;> cases hdev : info.Device == dev <;>
          simp [List.filter_cons, hdev]

/-- C2: for every table contents and device string, GetDevMounts returns
exactly the Infos of GetMounts whose Device equals the requested device,
in the same relative order (the pushed-in filter matches the
unfiltered-then-filtered semantics). -/
theorem GetDevMounts_filter (table : List Entry) (dev : String) :
    GetDevMounts table dev =
      (GetMounts table).map (fun infos => infos.filter (fun i => i.Device == dev)) := by
  simp only [GetDevMounts, GetMounts, getDevMounts, getMounts, Option.getD_none]
  rw [scanEntries_devFilter]
  cases scanEntries defaultEntryScanFunc table [] <;> simp [Except.map]

/-- C3: when the Scan Policy errors on the k-th Entry of a table (here the
Entry after the successfully scanned prefix), the enclosing queries return
that error with no result list — the partial results accumulated so far
are discarded. -/
theorem scanAbort_discards (scan : EntryScanFunc) (pre rest : List Entry)
    (e : Entry) (infos : List Info) (cache1 : Cache) (err : String)
    (hpre : scanEntries scan pre [] = .ok (infos, cache1))
    (herr : scan e cache1 = .error err) :
    GetMountsWithEntryScanFunc (pre ++ e :: rest) (some scan) = .error err ∧
    ∀ dev, GetDevMountsWithEntryScanFunc (pre ++ e :: rest) dev (some scan) =
      .error err := by
  constructor
  · simp only [GetMountsWithEntryScanFunc, getMounts, Option.getD_some]
    rw [scanEntries_append_ok scan pre (e :: rest) [] cache1 infos hpre]
    simp [scanEntries, herr, Except.map]
  · intro dev
    simp only [GetDevMountsWithEntryScanFunc, getDevMounts, Option.getD_some]
    rw [scanEntries_devFilter]
    rw [scanEntries_append_ok scan pre (e :: rest) [] cache1 infos hpre]
    simp [scanEntries, herr, Except.map]

/-- Witness for C3: a two-entry table whose second Entry makes the sample
policy error; both queries surface "boom" and no partial list. -/
theorem scanAbort_discards_witness :
    GetMountsWithEntryScanFunc
        ([⟨"/r", "/a", [], "ext4", "/dev/x"⟩] ++ ⟨"", "bad", [], "", ""⟩ :: [])
        (some scanW) = .error "boom" ∧
    GetDevMountsWithEntryScanFunc
        ([⟨"/r", "/a", [], "ext4", "/dev/x"⟩] ++ ⟨"", "bad", [], "", ""⟩ :: [])
        "/dev/x" (some scanW) = .error "boom" :=
  ⟨(scanAbort_discards scanW [⟨"/r", "/a", [], "ext4", "/dev/x"⟩] []
      ⟨"", "bad", [], "", ""⟩ [⟨"/dev/x", "/a", "/dev/x" ++ "/r", "ext4", []⟩] []
      "boom" (by rfl) (by rfl)).1,
   (scanAbort_discards scanW [⟨"/r", "/a", [], "ext4", "/dev/x"⟩] []
      ⟨"", "bad", [], "", ""⟩ [⟨"/dev/x", "/a", "/dev/x" ++ "/r", "ext4", []⟩] []
      "boom" (by rfl) (by rfl)).2 "/dev/x"⟩

/-- C7: when the Scan Policy returns keep=false with no error on an Entry
(here the one after the successfully scanned prefix), the query excludes
only that Entry's Info, continues scanning the remaining Entries from the
cache the policy returned, and does not treat the false result as an
error. -/
theorem scanSkip_spec (scan : EntryScanFunc) (pre rest : List Entry) (e : Entry)
    (infos : List Info) (cache1 : Cache) (info : Info) (cache2 : Cache)
    (hpre : scanEntries scan pre [] = .ok (infos, cache1))
    (hskip : scan e cache1 = .ok (info, false, cache2)) :
    GetMountsWithEntryScanFunc (pre ++ e :: rest) (some scan) =
      (scanEntries scan rest cache2).map (fun p => infos ++ p.1) := by
  simp only [GetMountsWithEntryScanFunc, getMounts, Option.getD_some]
  rw [scanEntries_append_ok scan pre (e :: rest) [] cache1 infos hpre]
  simp only [scanEntries, hskip]
  cases scanEntries scan rest cache2 <;> simp [Except.map]

/-- Witness for C7: the default policy skips an Entry with an empty
MountPoint; the scan continues past it and succeeds. -/
theorem scanSkip_spec_witness :
    GetMountsWithEntryScanFunc
        ([⟨"/r", "/a", [], "ext4", "/dev/x"⟩] ++
          ⟨"", "", [], "", ""⟩ :: [⟨"/r2", "/b", [], "xfs", "/dev/y"⟩])
        (some defaultEntryScanFunc) =
      (scanEntries defaultEntryScanFunc [⟨"/r2", "/b", [], "xfs", "/dev/y"⟩] []).map
        (fun p => [⟨"/dev/x", "/a", "/dev/x" ++ "/r", "ext4", []⟩] ++ p.1) :=
  scanSkip_spec defaultEntryScanFunc [⟨"/r", "/a", [], "ext4", "/dev/x"⟩]
    [⟨"/r2", "/b", [], "xfs", "/dev/y"⟩] ⟨"", "", [], "", ""⟩
    [⟨"/dev/x", "/a", "/dev/x" ++ "/r", "ext4", []⟩] []
    ⟨"", "", "" ++ "", "", []⟩ [] (by rfl) (by rfl)

end Gofsutil
